import Mathlib

/-!
Shallow embedding of `juce_AnimatedPosition.h` (class `AnimatedPosition<Behaviour>`).

Doubles are modelled as rationals; JUCE `Time` values become rational
timestamps in seconds, with the current time passed explicitly to every
operation that reads the clock.  The private `Timer` base class becomes the
pair of fields `timerRunning`/`timerPeriodMs`; `startTimer (p)` sets both,
`stopTimer()` clears `timerRunning`.  `ListenerList::call` becomes the list
of values sent to listeners that each operation returns, and the call to
`behaviour.releasedWithVelocity` is recorded as a `hookCalls` entry so that
theorems can speak about the argument the strategy observes.
-/

/-- JUCE `jmax (a, b)`: `a < b ? b : a`. -/
def jmax (a b : ℚ) : ℚ :=
  if a < b then b else a

/-- JUCE `jlimit (lower, upper, v)`: `v < lower ? lower : (upper < v ? upper : v)`. -/
def jlimit (lower upper v : ℚ) : ℚ :=
  if v < lower then lower else if upper < v then upper else v

/-- JUCE `Range<double>::clipValue (v)`, which is `jlimit (start, end, v)`. -/
def clipValue (rangeMin rangeMax v : ℚ) : ℚ :=
  jlimit rangeMin rangeMax v

/-- Source `std::numeric_limits<double>::max()`, the largest finite double. -/
def maxDouble : ℚ :=
  2 ^ 1024 - 2 ^ 971

/-- The capability set required of the template parameter `Behaviour`:
`releasedWithVelocity` and `getNextPosition` may mutate the strategy state
(returned functionally), `isStopped` is a predicate on a candidate position. -/
structure Behaviour (β : Type) where
  releasedWithVelocity : β → ℚ → ℚ → β
  getNextPosition : β → ℚ → ℚ → ℚ × β
  isStopped : β → ℚ → Bool

/-- The fields of `AnimatedPosition`: `position, grabbedPos, releaseVelocity`,
`range` (as `rangeMin`/`rangeMax`), `lastUpdate, lastDrag`, the behaviour
state, and the state of the private `Timer`. -/
structure State (β : Type) where
  position : ℚ
  grabbedPos : ℚ
  releaseVelocity : ℚ
  rangeMin : ℚ
  rangeMax : ℚ
  lastUpdate : ℚ
  lastDrag : ℚ
  behaviour : β
  timerRunning : Bool
  timerPeriodMs : ℕ
deriving DecidableEq

/-- The constructor: zero position/grab/velocity, range
`(-DBL_MAX, DBL_MAX)`, default-constructed times (epoch 0), timer stopped. -/
def initState (b : β) : State β :=
  { position := 0
    grabbedPos := 0
    releaseVelocity := 0
    rangeMin := -maxDouble
    rangeMax := maxDouble
    lastUpdate := 0
    lastDrag := 0
    behaviour := b
    timerRunning := false
    timerPeriodMs := 0 }

/-- Source `getSpeed (last, lastPos, now, newPos)`:
`elapsedSecs = jmax (0.005, (now - last).inSeconds())`,
`v = (newPos - lastPos) / elapsedSecs`, returning `v` when `|v| > 0.2`
and `0.0` otherwise. -/
def getSpeed (last lastPos now newPos : ℚ) : ℚ :=
  let elapsedSecs := jmax (5 / 1000) (now - last)
  let v := (newPos - lastPos) / elapsedSecs
  if |v| > 1 / 5 then v else 0

/-- Source `setPositionAndSendChange (newPosition)`: clip into `range`, and when the
clipped value differs from the stored `position`, store it and call the
listeners with it; otherwise do nothing.  The second component is the list of
listener notifications performed. -/
def setPositionAndSendChange (s : State β) (newPosition : ℚ) : State β × List ℚ :=
  let np := clipValue s.rangeMin s.rangeMax newPosition
  if s.position ≠ np then ({ s with position := np }, [np]) else (s, [])

/-- The values sent to observers by one operation: listener notifications and
`releasedWithVelocity` calls (position, velocity) in the order they happen. -/
structure Effects where
  notifications : List ℚ
  hookCalls : List (ℚ × ℚ)
deriving DecidableEq

/-- Source `moveTo (newPos)`: estimate `releaseVelocity` from the last drag sample,
inform the behaviour via `releasedWithVelocity (newPos, releaseVelocity)`
(with the raw, unclipped `newPos`), record `lastDrag = now`, then
clamp-and-publish. -/
def moveTo (bhv : Behaviour β) (s : State β) (now newPos : ℚ) : State β × Effects :=
  let rv := getSpeed s.lastDrag s.position now newPos
  let b2 := bhv.releasedWithVelocity s.behaviour newPos rv
  let s1 : State β := { s with releaseVelocity := rv, behaviour := b2, lastDrag := now }
  let r := setPositionAndSendChange s1 newPos
  (r.1, ⟨r.2, [(newPos, rv)]⟩)

/-- Source `setLimits (newRange)`: `range = newRange`, nothing else. -/
def setLimits (s : State β) (newMin newMax : ℚ) : State β :=
  { s with rangeMin := newMin, rangeMax := newMax }

/-- Source `beginDrag()`: `grabbedPos = position; releaseVelocity = 0; stopTimer()`. -/
def beginDrag (s : State β) : State β :=
  { s with grabbedPos := s.position, releaseVelocity := 0, timerRunning := false }

/-- Source `drag (deltaFromStartOfDrag)`: `moveTo (grabbedPos + delta)`. -/
def drag (bhv : Behaviour β) (s : State β) (now delta : ℚ) : State β × Effects :=
  moveTo bhv s now (s.grabbedPos + delta)

/-- Source `endDrag()`: `startTimer (1000 / 60)` (C++ integer division). -/
def endDrag (s : State β) : State β :=
  { s with timerRunning := true, timerPeriodMs := 1000 / 60 }

/-- Source `nudge (delta)`: `startTimer (100); moveTo (position + delta)`. -/
def nudge (bhv : Behaviour β) (s : State β) (now delta : ℚ) : State β × Effects :=
  moveTo bhv { s with timerRunning := true, timerPeriodMs := 100 } now (s.position + delta)

/-- Source `getPosition()`. -/
def getPosition (s : State β) : ℚ :=
  s.position

/-- Source `setPosition (newPosition)`: `stopTimer(); setPositionAndSendChange (newPosition)`. -/
def setPosition (s : State β) (newPosition : ℚ) : State β × List ℚ :=
  setPositionAndSendChange { s with timerRunning := false } newPosition

/-- Source `timerCallback()`: `elapsed = jlimit (0.001, 0.020, now - lastUpdate)`;
`lastUpdate = now`; `newPos = behaviour.getNextPosition (position, elapsed)`;
stop the timer if `behaviour.isStopped (newPos)` else re-arm at `1000 / 60`;
finally `setPositionAndSendChange (newPos)`. -/
def timerCallback (bhv : Behaviour β) (s : State β) (now : ℚ) : State β × List ℚ :=
  let elapsed := jlimit (1 / 1000) (1 / 50) (now - s.lastUpdate)
  let s1 : State β := { s with lastUpdate := now }
  let r := bhv.getNextPosition s1.behaviour s1.position elapsed
  let s2 : State β := { s1 with behaviour := r.2 }
  let s3 : State β :=
    if bhv.isStopped r.2 r.1 then { s2 with timerRunning := false }
    else { s2 with timerRunning := true, timerPeriodMs := 1000 / 60 }
  setPositionAndSendChange s3 r.1

/-- A scheduler tick: the host timer invokes `timerCallback` only while the
timer is running; a tick of a stopped timer does nothing. -/
def tick (bhv : Behaviour β) (s : State β) (now : ℚ) : State β × List ℚ :=
  if s.timerRunning then timerCallback bhv s now else (s, [])

/-- One public operation of the interface, with the clock reading it uses. -/
inductive Op where
  | setLimits (newMin newMax : ℚ)
  | beginDrag
  | drag (now delta : ℚ)
  | endDrag
  | nudge (now delta : ℚ)
  | setPosition (x : ℚ)
  | tick (now : ℚ)
deriving DecidableEq

/-- Whether an operation is a `setLimits`. -/
def Op.isSetLimits : Op → Bool
  | .setLimits _ _ => true
  | _ => false

/-- Apply one operation to a state, discarding notifications. -/
def applyOp (bhv : Behaviour β) (s : State β) : Op → State β
  | .setLimits mn mx => setLimits s mn mx
  | .beginDrag => beginDrag s
  | .drag now delta => (drag bhv s now delta).1
  | .endDrag => endDrag s
  | .nudge now delta => (nudge bhv s now delta).1
  | .setPosition x => (setPosition s x).1
  | .tick now => (tick bhv s now).1

/-- Run a sequence of public operations. -/
def run (bhv : Behaviour β) (s : State β) (ops : List Op) : State β :=
  ops.foldl (applyOp bhv) s

/-- Fold a sequence of bare scheduler ticks over a state. -/
def ticksOnly (bhv : Behaviour β) (s : State β) (times : List ℚ) : State β :=
  times.foldl (fun st t => (tick bhv st t).1) s

/-- A concrete strategy instance used to evaluate the model at concrete
inputs: keeps no state, keeps the position, never reports stopped. -/
def constBehaviour : Behaviour Unit :=
  { releasedWithVelocity := fun b _ _ => b
    getNextPosition := fun b p _ => (p, b)
    isStopped := fun _ _ => false }

/-! ## Helper lemmas -/

lemma jmax_eq_max (a b : ℚ) : jmax a b = max a b := by
  unfold jmax
  rw [max_def]
  split_ifs <;> linarith

lemma jlimit_eq_max_min (l u v : ℚ) (h : l ≤ u) : jlimit l u v = max l (min u v) := by
  unfold jlimit
  rw [max_def, min_def]
  split_ifs <;> linarith

lemma clipValue_mem (mn mx v : ℚ) (h : mn ≤ mx) :
    mn ≤ clipValue mn mx v ∧ clipValue mn mx v ≤ mx := by
  unfold clipValue jlimit
  split_ifs <;> constructor <;> linarith

lemma spsc_position (s : State β) (x : ℚ) :
    (setPositionAndSendChange s x).1.position = clipValue s.rangeMin s.rangeMax x := by
  unfold setPositionAndSendChange
  by_cases h : s.position = clipValue s.rangeMin s.rangeMax x <;> simp [h]

lemma spsc_frame (s : State β) (x : ℚ) :
    (setPositionAndSendChange s x).1.grabbedPos = s.grabbedPos
    ∧ (setPositionAndSendChange s x).1.releaseVelocity = s.releaseVelocity
    ∧ (setPositionAndSendChange s x).1.rangeMin = s.rangeMin
    ∧ (setPositionAndSendChange s x).1.rangeMax = s.rangeMax
    ∧ (setPositionAndSendChange s x).1.lastUpdate = s.lastUpdate
    ∧ (setPositionAndSendChange s x).1.lastDrag = s.lastDrag
    ∧ (setPositionAndSendChange s x).1.behaviour = s.behaviour
    ∧ (setPositionAndSendChange s x).1.timerRunning = s.timerRunning
    ∧ (setPositionAndSendChange s x).1.timerPeriodMs = s.timerPeriodMs := by
  unfold setPositionAndSendChange
  by_cases h : s.position = clipValue s.rangeMin s.rangeMax x <;> simp [h]

lemma spsc_notes (s : State β) (x : ℚ) :
    (setPositionAndSendChange s x).2 =
      if s.position = clipValue s.rangeMin s.rangeMax x then []
      else [clipValue s.rangeMin s.rangeMax x] := by
  unfold setPositionAndSendChange
  by_cases h : s.position = clipValue s.rangeMin s.rangeMax x <;> simp [h]

lemma tick_of_stopped (bhv : Behaviour β) (s : State β) (now : ℚ)
    (h : s.timerRunning = false) : tick bhv s now = (s, []) := by
  unfold tick
  rw [h]
  simp

/-! ## Claims -/

/-- Spec-side formulation of the velocity estimator:
elapsed = max(0.005s, now - lastDragTime); v = (newPos - lastPos) / elapsed;
whenever |v| <= 0.2 units/second report exactly 0, else report v. -/
def specSpeed (last lastPos now newPos : ℚ) : ℚ :=
  let elapsed := max (5 / 1000) (now - last)
  let v := (newPos - lastPos) / elapsed
  if |v| ≤ 1 / 5 then 0 else v

/-- C2: for every pair of drag samples, the estimated release velocity equals
v = (newPos - lastPos) / elapsed with elapsed = max(0.005 s, now - lastDragTime),
except that whenever |v| <= 0.2 units/second the reported velocity is exactly 0:
the source `getSpeed` agrees with that description at all inputs. -/
theorem c2_speed_matches_spec (last lastPos now newPos : ℚ) :
    getSpeed last lastPos now newPos = specSpeed last lastPos now newPos := by
  simp only [getSpeed, specSpeed, jmax_eq_max]
  split_ifs <;> first | rfl | linarith

/-- C3 counterexample: at lastPos = 0, newPos = 0.1, elapsed = 1 s the
estimator returns 0, not 0.1 as the claim states, because |0.1| is below the
0.2 noise floor. -/
theorem c3_example_cex :
    getSpeed 0 0 1 (1 / 10) = 0 ∧ getSpeed 0 0 1 (1 / 10) ≠ 1 / 10 := by
  constructor <;> norm_num [getSpeed, jmax, abs_le]

/-- C3 amended: for lastPos = 0, newPos = 0.1, elapsed = 1 s the velocity
estimator returns exactly 0 (0.1 is below the 0.2 noise floor), and for
lastPos = 0, newPos = 0.05, elapsed = 1 s it also returns exactly 0. -/
theorem c3_example_amended :
    getSpeed 0 0 1 (1 / 10) = 0 ∧ getSpeed 0 0 1 (1 / 20) = 0 := by
  constructor <;> norm_num [getSpeed, jmax, abs_le]

/-- C6: beginDrag is idempotent - a second consecutive beginDrag yields
exactly the same state as one call; that state has grabbedPos equal to the
current position, releaseVelocity 0, the scheduler stopped, and the position
unchanged (beginDrag sends no listener notification: its result type carries
none). -/
theorem c6_beginDrag_idempotent (s : State β) :
    beginDrag (beginDrag s) = beginDrag s
    ∧ (beginDrag s).grabbedPos = s.position
    ∧ (beginDrag s).releaseVelocity = 0
    ∧ (beginDrag s).timerRunning = false
    ∧ (beginDrag s).position = s.position :=
  ⟨rfl, rfl, rfl, rfl, rfl⟩

/-- C7: setLimits only replaces the stored range - position, drag state,
velocity, timestamps, behaviour state and the scheduler timer are all
unchanged and no listener is notified (its result type carries no
notifications); the new range takes effect at the next write through
clamp-and-publish, whose stored position is clipped with the new bounds. -/
theorem c7_setLimits_frame (s : State β) (mn mx x : ℚ) :
    (setLimits s mn mx).rangeMin = mn
    ∧ (setLimits s mn mx).rangeMax = mx
    ∧ (setLimits s mn mx).position = s.position
    ∧ (setLimits s mn mx).grabbedPos = s.grabbedPos
    ∧ (setLimits s mn mx).releaseVelocity = s.releaseVelocity
    ∧ (setLimits s mn mx).lastUpdate = s.lastUpdate
    ∧ (setLimits s mn mx).lastDrag = s.lastDrag
    ∧ (setLimits s mn mx).behaviour = s.behaviour
    ∧ (setLimits s mn mx).timerRunning = s.timerRunning
    ∧ (setLimits s mn mx).timerPeriodMs = s.timerPeriodMs
    ∧ (setPositionAndSendChange (setLimits s mn mx) x).1.position = clipValue mn mx x :=
  ⟨rfl, rfl, rfl, rfl, rfl, rfl, rfl, rfl, rfl, rfl, spsc_position _ _⟩

lemma notes_ne_iff (s : State β) (x : ℚ) :
    (setPositionAndSendChange s x).2 ≠ [] ↔ clipValue s.rangeMin s.rangeMax x ≠ s.position := by
  rw [spsc_notes]
  by_cases h : s.position = clipValue s.rangeMin s.rangeMax x <;> simp [h, ne_comm]

/-- C4: for every write through the clamp-and-publish path, listeners are
invoked if and only if the range-clipped candidate differs from the stored
position under exact equality; when they are equal the state is untouched and
no notification happens; the same iff holds for the notifications produced by
setPosition, drag and nudge, whose candidates are x, grabbedPos + delta and
position + delta respectively. -/
theorem c4_notify_iff_changed (bhv : Behaviour β) (s : State β) (x delta now : ℚ) :
    ((setPositionAndSendChange s x).2 ≠ [] ↔ clipValue s.rangeMin s.rangeMax x ≠ s.position)
    ∧ (clipValue s.rangeMin s.rangeMax x = s.position →
        setPositionAndSendChange s x = (s, []))
    ∧ (clipValue s.rangeMin s.rangeMax x ≠ s.position →
        (setPositionAndSendChange s x).2 = [clipValue s.rangeMin s.rangeMax x])
    ∧ ((setPosition s x).2 ≠ [] ↔ clipValue s.rangeMin s.rangeMax x ≠ s.position)
    ∧ ((drag bhv s now delta).2.notifications ≠ [] ↔
        clipValue s.rangeMin s.rangeMax (s.grabbedPos + delta) ≠ s.position)
    ∧ ((nudge bhv s now delta).2.notifications ≠ [] ↔
        clipValue s.rangeMin s.rangeMax (s.position + delta) ≠ s.position) := by
  refine ⟨notes_ne_iff s x, ?_, ?_, notes_ne_iff _ _, notes_ne_iff _ _, notes_ne_iff _ _⟩
  · intro h
    simp [setPositionAndSendChange, h]
  · intro h
    rw [spsc_notes, if_neg (fun hc => h hc.symm)]

/-- C4 witness: from the initial state, setPositionAndSendChange 5 notifies. -/
theorem c4_notify_iff_changed_witness :
    (setPositionAndSendChange (initState ()) 5).2 ≠ [] :=
  (c4_notify_iff_changed constBehaviour (initState ()) 5 0 0).1.mpr
    (by norm_num [initState, clipValue, jlimit, maxDouble])

lemma ticksOnly_stopped (bhv : Behaviour β) (times : List ℚ) :
    ∀ s : State β, s.timerRunning = false → ticksOnly bhv s times = s := by
  induction times with
  | nil => intro s _; rfl
  | cons t ts ih =>
      intro s h
      simp only [ticksOnly, List.foldl_cons, tick_of_stopped bhv s t h]
      exact ih s h

/-- C5: for every x and every prior state, after setPosition x the scheduler
timer is stopped and getPosition returns x clipped into the current range;
since a tick of a stopped timer does nothing, any sequence of further
scheduler ticks leaves the state exactly as setPosition left it. -/
theorem c5_setPosition_stops (bhv : Behaviour β) (s : State β) (x : ℚ) (times : List ℚ) :
    getPosition (setPosition s x).1 = clipValue s.rangeMin s.rangeMax x
    ∧ (setPosition s x).1.timerRunning = false
    ∧ ticksOnly bhv (setPosition s x).1 times = (setPosition s x).1 := by
  have h1 : getPosition (setPosition s x).1 = clipValue s.rangeMin s.rangeMax x :=
    spsc_position { s with timerRunning := false } x
  have h2 : (setPosition s x).1.timerRunning = false :=
    (spsc_frame { s with timerRunning := false } x).2.2.2.2.2.2.2.1
  exact ⟨h1, h2, ticksOnly_stopped bhv times _ h2⟩

/-- Spec-side elapsed time of a tick: now - lastUpdateTime clamped into the
interval from 0.001 s to 0.020 s. -/
def tickElapsed (s : State β) (now : ℚ) : ℚ :=
  max (1 / 1000) (min (1 / 50) (now - s.lastUpdate))

/-- The candidate position and updated strategy state a tick obtains from
the strategy on the current position and the clamped elapsed time. -/
def tickNext (bhv : Behaviour β) (s : State β) (now : ℚ) : ℚ × β :=
  bhv.getNextPosition s.behaviour s.position (tickElapsed s now)

lemma timerCallback_eq (bhv : Behaviour β) (s : State β) (now : ℚ) :
    timerCallback bhv s now =
      setPositionAndSendChange
        (if bhv.isStopped (tickNext bhv s now).2 (tickNext bhv s now).1 then
          { s with lastUpdate := now, behaviour := (tickNext bhv s now).2,
                   timerRunning := false }
         else
          { s with lastUpdate := now, behaviour := (tickNext bhv s now).2,
                   timerRunning := true, timerPeriodMs := 1000 / 60 })
        (tickNext bhv s now).1 := by
  have he : jlimit (1 / 1000) (1 / 50) (now - s.lastUpdate) = tickElapsed s now :=
    jlimit_eq_max_min _ _ _ (by norm_num)
  simp only [timerCallback, tickNext, tickElapsed, he]

/-- C8: on a tick of a running timer, the elapsed time handed to the strategy
is now - lastUpdate clamped into the interval from 0.001 to 0.020 seconds,
lastUpdate becomes now, the strategy is asked for the next position from the
current position and that elapsed value, the timer ends up stopped exactly
when isStopped holds on the candidate and is otherwise re-armed at 1000/60 ms,
and in both cases the candidate is clipped into the range and stored, with a
notification exactly when the clipped value differs from the stored one. -/
theorem c8_tick_behavior (bhv : Behaviour β) (s : State β) (now : ℚ)
    (h : s.timerRunning = true) :
    (tick bhv s now).1.lastUpdate = now
    ∧ (tick bhv s now).1.behaviour = (tickNext bhv s now).2
    ∧ (tick bhv s now).1.timerRunning
        = !(bhv.isStopped (tickNext bhv s now).2 (tickNext bhv s now).1)
    ∧ (tick bhv s now).1.timerPeriodMs
        = (if bhv.isStopped (tickNext bhv s now).2 (tickNext bhv s now).1 then
            s.timerPeriodMs else 1000 / 60)
    ∧ (tick bhv s now).1.position = clipValue s.rangeMin s.rangeMax (tickNext bhv s now).1
    ∧ ((tick bhv s now).2 ≠ [] ↔
        clipValue s.rangeMin s.rangeMax (tickNext bhv s now).1 ≠ s.position) := by
  have ht : tick bhv s now = timerCallback bhv s now := by
    unfold tick
    rw [h]
    simp
  rw [ht, timerCallback_eq]
  cases hb : bhv.isStopped (tickNext bhv s now).2 (tickNext bhv s now).1 with
  | true =>
      simp only [hb, if_true]
      exact ⟨(spsc_frame _ _).2.2.2.2.1, (spsc_frame _ _).2.2.2.2.2.2.1,
             (spsc_frame _ _).2.2.2.2.2.2.2.1, (spsc_frame _ _).2.2.2.2.2.2.2.2,
             spsc_position _ _, notes_ne_iff _ _⟩
  | false =>
      simp only [hb, if_false, Bool.false_eq_true]
      exact ⟨(spsc_frame _ _).2.2.2.2.1, (spsc_frame _ _).2.2.2.2.2.2.1,
             (spsc_frame _ _).2.2.2.2.2.2.2.1, (spsc_frame _ _).2.2.2.2.2.2.2.2,
             spsc_position _ _, notes_ne_iff _ _⟩

/-- C8 witness: a concrete tick of a running timer updates lastUpdate. -/
theorem c8_tick_behavior_witness :
    (endDrag (initState ())).timerRunning = true
    ∧ (tick constBehaviour (endDrag (initState ())) 1).1.lastUpdate = 1 :=
  ⟨rfl, (c8_tick_behavior constBehaviour (endDrag (initState ())) 1 rfl).1⟩

/-- C9 counterexample: nudge arms the timer at 100 ms while endDrag arms it
at 1000/60 = 16 ms, so the initial nudge period is not shorter than the
endDrag period as the claim states - it is longer. -/
theorem c9_nudge_cex :
    (nudge constBehaviour (initState ()) 0 0).1.timerPeriodMs = 100
    ∧ (endDrag (initState ())).timerPeriodMs = 16
    ∧ ¬((nudge constBehaviour (initState ()) 0 0).1.timerPeriodMs
          < (endDrag (initState ())).timerPeriodMs) := by
  have hp : (nudge constBehaviour (initState ()) 0 0).1.timerPeriodMs = 100 :=
    (spsc_frame _ _).2.2.2.2.2.2.2.2
  refine ⟨hp, rfl, ?_⟩
  rw [hp]
  decide

/-- C9 amended: nudge delta outside a drag changes the stored position by
clip(current + delta) - current through the shared move-to path, and starts
the scheduler with an initial period of 100 ms; that period is longer than
the 1000/60 = 16 ms period used by endDrag, so the first continuation tick
arrives within 100 ms but no sooner than the endDrag cadence. -/
theorem c9_nudge_amended (bhv : Behaviour β) (s : State β) (now delta : ℚ) :
    (nudge bhv s now delta).1.position - s.position =
      clipValue s.rangeMin s.rangeMax (s.position + delta) - s.position
    ∧ (nudge bhv s now delta).1.timerRunning = true
    ∧ (nudge bhv s now delta).1.timerPeriodMs = 100
    ∧ (endDrag s).timerPeriodMs = 1000 / 60
    ∧ (endDrag s).timerPeriodMs < (nudge bhv s now delta).1.timerPeriodMs := by
  have hp : (nudge bhv s now delta).1.position =
      clipValue s.rangeMin s.rangeMax (s.position + delta) :=
    spsc_position _ _
  have hm : (nudge bhv s now delta).1.timerPeriodMs = 100 :=
    (spsc_frame _ _).2.2.2.2.2.2.2.2
  refine ⟨by rw [hp], (spsc_frame _ _).2.2.2.2.2.2.2.1, hm, rfl, ?_⟩
  rw [hm]
  show (1000 / 60 : ℕ) < 100
  decide

/-- C10: both drag and nudge call the releasedWithVelocity hook exactly once,
with the raw unclipped candidate (grabbedPos + delta, respectively
position + delta) and the freshly estimated velocity, before any clipping;
the behaviour state, releaseVelocity and lastDrag are all updated from those
raw values, for every state - in particular also when the subsequent clip
leaves the stored position unchanged and no listener fires. -/
theorem c10_hook_gets_raw (bhv : Behaviour β) (s : State β) (now delta : ℚ) :
    (drag bhv s now delta).2.hookCalls =
      [(s.grabbedPos + delta, getSpeed s.lastDrag s.position now (s.grabbedPos + delta))]
    ∧ (drag bhv s now delta).1.behaviour =
        bhv.releasedWithVelocity s.behaviour (s.grabbedPos + delta)
          (getSpeed s.lastDrag s.position now (s.grabbedPos + delta))
    ∧ (drag bhv s now delta).1.releaseVelocity =
        getSpeed s.lastDrag s.position now (s.grabbedPos + delta)
    ∧ (drag bhv s now delta).1.lastDrag = now
    ∧ (nudge bhv s now delta).2.hookCalls =
      [(s.position + delta, getSpeed s.lastDrag s.position now (s.position + delta))]
    ∧ (nudge bhv s now delta).1.behaviour =
        bhv.releasedWithVelocity s.behaviour (s.position + delta)
          (getSpeed s.lastDrag s.position now (s.position + delta))
    ∧ (nudge bhv s now delta).1.releaseVelocity =
        getSpeed s.lastDrag s.position now (s.position + delta)
    ∧ (nudge bhv s now delta).1.lastDrag = now :=
  ⟨rfl, (spsc_frame _ _).2.2.2.2.2.2.1, (spsc_frame _ _).2.1,
   (spsc_frame _ _).2.2.2.2.2.1, rfl, (spsc_frame _ _).2.2.2.2.2.2.1,
   (spsc_frame _ _).2.1, (spsc_frame _ _).2.2.2.2.2.1⟩

lemma spsc_in_range (s : State β) (x : ℚ) (hr : s.rangeMin ≤ s.rangeMax) :
    (setPositionAndSendChange s x).1.rangeMin ≤ (setPositionAndSendChange s x).1.position
    ∧ (setPositionAndSendChange s x).1.position ≤ (setPositionAndSendChange s x).1.rangeMax := by
  have hf := spsc_frame s x
  rw [spsc_position s x, hf.2.2.1, hf.2.2.2.1]
  exact clipValue_mem _ _ _ hr

lemma applyOp_preserves (bhv : Behaviour β) (s : State β) (op : Op)
    (hop : op.isSetLimits = false) (hr : s.rangeMin ≤ s.rangeMax)
    (h1 : s.rangeMin ≤ s.position) (h2 : s.position ≤ s.rangeMax) :
    (applyOp bhv s op).rangeMin = s.rangeMin
    ∧ (applyOp bhv s op).rangeMax = s.rangeMax
    ∧ (applyOp bhv s op).rangeMin ≤ (applyOp bhv s op).position
    ∧ (applyOp bhv s op).position ≤ (applyOp bhv s op).rangeMax := by
  cases op with
  | setLimits mn mx => simp [Op.isSetLimits] at hop
  | beginDrag => exact ⟨rfl, rfl, h1, h2⟩
  | drag now delta =>
      refine ⟨(spsc_frame _ _).2.2.1, (spsc_frame _ _).2.2.2.1,
              (spsc_in_range _ _ ?_).1, (spsc_in_range _ _ ?_).2⟩ <;> exact hr
  | endDrag => exact ⟨rfl, rfl, h1, h2⟩
  | nudge now delta =>
      refine ⟨(spsc_frame _ _).2.2.1, (spsc_frame _ _).2.2.2.1,
              (spsc_in_range _ _ ?_).1, (spsc_in_range _ _ ?_).2⟩ <;> exact hr
  | setPosition x =>
      refine ⟨(spsc_frame _ _).2.2.1, (spsc_frame _ _).2.2.2.1,
              (spsc_in_range _ _ ?_).1, (spsc_in_range _ _ ?_).2⟩ <;> exact hr
  | tick now =>
      cases hb : s.timerRunning with
      | false =>
          simp only [applyOp, tick_of_stopped bhv s now hb]
          exact ⟨trivial, trivial, h1, h2⟩
      | true =>
          have ht : tick bhv s now = timerCallback bhv s now := by
            unfold tick
            rw [hb]
            simp
          simp only [applyOp, ht, timerCallback_eq]
          cases hs : bhv.isStopped (tickNext bhv s now).2 (tickNext bhv s now).1 with
          | false =>
              simp only [hs, if_false, Bool.false_eq_true]
              refine ⟨(spsc_frame _ _).2.2.1, (spsc_frame _ _).2.2.2.1,
                      (spsc_in_range _ _ ?_).1, (spsc_in_range _ _ ?_).2⟩ <;> exact hr
          | true =>
              simp only [hs, if_true]
              refine ⟨(spsc_frame _ _).2.2.1, (spsc_frame _ _).2.2.2.1,
                      (spsc_in_range _ _ ?_).1, (spsc_in_range _ _ ?_).2⟩ <;> exact hr

lemma run_preserves (bhv : Behaviour β) (ops : List Op) :
    ∀ s : State β, (∀ op ∈ ops, op.isSetLimits = false) →
      s.rangeMin ≤ s.rangeMax → s.rangeMin ≤ s.position → s.position ≤ s.rangeMax →
      (run bhv s ops).rangeMin ≤ (run bhv s ops).position
      ∧ (run bhv s ops).position ≤ (run bhv s ops).rangeMax := by
  induction ops with
  | nil => exact fun s _ _ h1 h2 => ⟨h1, h2⟩
  | cons op ops ih =>
      intro s hops hr h1 h2
      have hop := hops op (List.mem_cons_self op ops)
      have hpre := applyOp_preserves bhv s op hop hr h1 h2
      have hr2 : (applyOp bhv s op).rangeMin ≤ (applyOp bhv s op).rangeMax := by
        rw [hpre.1, hpre.2.1]
        exact hr
      have hstep := ih (applyOp bhv s op)
        (fun o ho => hops o (List.mem_cons_of_mem op ho)) hr2 hpre.2.2.1 hpre.2.2.2
      simpa [run, List.foldl_cons] using hstep

/-- C1 counterexample: from the initial state, setPosition 5 then
setLimits [0, 1] leaves getPosition at 5, which is outside the current range
[0, 1] - the claimed invariant fails immediately after setLimits. -/
theorem c1_in_range_cex :
    getPosition (run constBehaviour (initState ()) [Op.setPosition 5, Op.setLimits 0 1]) = 5
    ∧ (run constBehaviour (initState ()) [Op.setPosition 5, Op.setLimits 0 1]).rangeMin = 0
    ∧ (run constBehaviour (initState ()) [Op.setPosition 5, Op.setLimits 0 1]).rangeMax = 1
    ∧ ¬((5 : ℚ) ≤ 1) := by
  have h5 : clipValue (initState ()).rangeMin (initState ()).rangeMax 5 = 5 := by
    norm_num [initState, clipValue, jlimit, maxDouble]
  refine ⟨?_, rfl, rfl, by norm_num⟩
  show getPosition (setLimits (setPosition (initState ()) 5).1 0 1) = 5
  have hp : getPosition (setPosition (initState ()) 5).1 =
      clipValue (initState ()).rangeMin (initState ()).rangeMax 5 :=
    spsc_position { initState () with timerRunning := false } 5
  show getPosition (setPosition (initState ()) 5).1 = 5
  rw [hp, h5]

/-- C1 amended: after every public operation other than setLimits, starting
from a state whose position lies in its well-formed range, getPosition stays
within the range, which those operations never change; drag, nudge,
setPosition and a firing tick re-clip unconditionally, while beginDrag,
endDrag and an idle tick leave the position alone; setLimits itself can
leave the stored position outside the freshly installed range until the next
write, as the counterexample shows. -/
theorem c1_in_range_amended (bhv : Behaviour β) (s : State β) (ops : List Op)
    (hops : ∀ op ∈ ops, op.isSetLimits = false) (hr : s.rangeMin ≤ s.rangeMax)
    (h1 : s.rangeMin ≤ s.position) (h2 : s.position ≤ s.rangeMax) :
    (run bhv s ops).rangeMin ≤ getPosition (run bhv s ops)
    ∧ getPosition (run bhv s ops) ≤ (run bhv s ops).rangeMax :=
  run_preserves bhv ops s hops hr h1 h2

/-- C1 witness: a concrete operation sequence without setLimits keeps the
position within the range. -/
theorem c1_in_range_amended_witness :
    (∀ op ∈ [Op.beginDrag, Op.setPosition 5, Op.endDrag, Op.tick 1], op.isSetLimits = false)
    ∧ ((run constBehaviour (initState ())
          [Op.beginDrag, Op.setPosition 5, Op.endDrag, Op.tick 1]).rangeMin ≤
        getPosition (run constBehaviour (initState ())
          [Op.beginDrag, Op.setPosition 5, Op.endDrag, Op.tick 1])
       ∧ getPosition (run constBehaviour (initState ())
          [Op.beginDrag, Op.setPosition 5, Op.endDrag, Op.tick 1]) ≤
        (run constBehaviour (initState ())
          [Op.beginDrag, Op.setPosition 5, Op.endDrag, Op.tick 1]).rangeMax) :=
  ⟨by decide, c1_in_range_amended constBehaviour (initState ()) _ (by decide)
    (by norm_num [initState, maxDouble]) (by norm_num [initState, maxDouble])
    (by norm_num [initState, maxDouble])⟩
